import Mathlib

/-!
# VectoriaDB SDK — verification of the RPC correlation / streaming core

Shallow embedding of the client transport (`src/client/socket-client.js`)
and the server dispatcher / autosave scheduler
(`src/server/vectoriadb-server.js`).

The client is modelled as a state machine: the correlation table
(`_pending`), the offline queue (`_offlineQueue`) and the socket
connection flag, driven by the events the socket.io layer delivers
(`connect`, `disconnect`, `response`, `response-chunk`), by calls to
`sendRequest`, and by timer firings.  Promise resolution / rejection and
outgoing `emit("request", …)` calls are recorded in an append-only
action log.  Timer state is represented by the fact that a
`timeoutFire id` event is only effective while the pending entry for
`id` exists — `clearTimeout` is called exactly on the paths that delete
the entry, and a `reject` on an already-settled promise is a no-op.

Machine integers do not occur; all JS numbers involved are small
non-negative integers (timestamps, indices, counts) modelled as `Nat`.
Items carried in results and chunks are modelled by an arbitrary type
`V`.
-/

namespace VectoriaSDK

/-- A request envelope `{ id, method, params, collection, timestamp }`
built by `sendRequest` (src/client/socket-client.js line 91). Ids are
modelled as `Nat` (the JS code uses opaque unique strings). -/
structure Envelope (V : Type) where
  id : Nat
  method : String
  params : List V
  timestamp : Nat
  deriving Repr, DecidableEq

/-- Per-request bookkeeping of the client, stored in `_pending`
(src/client/socket-client.js line 102):
`{ resolve, reject, timer, timeoutMs, chunksMap, receivedChunks, totalChunks }`.
`chunksMap` is a JS object keyed by numeric index; `none` models the
initial `null`, and the object itself is modelled as an assoc list with
insert-or-replace update.  The `resolve`/`reject` continuations are
modelled by actions in the log of the machine, and the timer by the
`timeoutFire` event. -/
structure Pending (V : Type) where
  chunksMap : Option (List (Nat × List V))
  receivedChunks : Nat
  totalChunks : Option Nat
  deriving Repr, DecidableEq

/-- The fresh entry registered by `sendRequest`
(src/client/socket-client.js line 102). -/
def freshPending (V : Type) : Pending V :=
  { chunksMap := none, receivedChunks := 0, totalChunks := none }

/-- Observable effects of the client: outgoing `emit("request", …)`
calls and promise settlement. -/
inductive Action (V : Type) where
  | emitReq (env : Envelope V)
  | resolveResult (id : Nat) (result : Option V)
  | resolveChunks (id : Nat) (assembled : List V)
  | reject (id : Nat) (msg : String)
  deriving Repr, DecidableEq

/-- Events driving the client machine: socket events delivered by the
transport, `sendRequest` calls, and timeout-timer firings. -/
inductive CEvent (V : Type) where
  | connectEv
  | disconnectEv
  | sendRequest (env : Envelope V)
  | timeoutFire (id : Nat)
  | response (id : Nat) (result : Option V) (error : Option String)
  | responseChunk (id : Nat) (chunk : List V) (index : Nat) (totalChunks : Option Nat)
  deriving Repr, DecidableEq

/-- Client state: connection flag, `_pending` (as a map from id), the
`_offlineQueue`, and the log of observable actions so far. -/
structure CState (V : Type) where
  connected : Bool
  pending : Nat → Option (Pending V)
  offlineQueue : List (Envelope V)
  log : List (Action V)

/-- Models `pending.chunksMap[index] = chunk` — JS object assignment with a
numeric key: replace if present, append otherwise
(src/client/socket-client.js line 74). -/
def mapInsert {V : Type} (m : List (Nat × List V)) (k : Nat) (v : List V) :
    List (Nat × List V) :=
  match m with
  | [] => [(k, v)]
  | (k', v') :: rest =>
      if k' = k then (k, v) :: rest else (k', v') :: mapInsert rest k v

/-- Models `chunksMap[i]` — JS object property lookup by numeric key. -/
def mapLookup {V : Type} (m : List (Nat × List V)) (k : Nat) : Option (List V) :=
  match m with
  | [] => none
  | (k', v) :: rest => if k' = k then some v else mapLookup rest k

/-- The assembly step of the "response" handler
(src/client/socket-client.js lines 51–55): collect the numeric keys of
`chunksMap`, sort ascending, and flatten the chunk arrays in that
order.  (`Array.isArray(chunksMap[i])` always holds here because every
stored value is a chunk array.) -/
def assembleChunks {V : Type} (m : List (Nat × List V)) : List V :=
  (List.insertionSort (· ≤ ·) (m.map Prod.fst)).flatMap
    fun i => (mapLookup m i).getD []

/-- Deletion from the `_pending` map. -/
def pdelete {V : Type} (p : Nat → Option (Pending V)) (id : Nat) :
    Nat → Option (Pending V) :=
  fun j => if j = id then none else p j

/-- Insertion into the `_pending` map. -/
def pset {V : Type} (p : Nat → Option (Pending V)) (id : Nat) (e : Pending V) :
    Nat → Option (Pending V) :=
  fun j => if j = id then some e else p j

/-- Models `error.message || "ServerError"` (src/client/socket-client.js
line 63): a falsy (empty) message falls back to `"ServerError"`. -/
def errMessage (msg : String) : String :=
  if msg = "" then "ServerError" else msg

/-- One step of the client machine.  Each branch mirrors a handler in
`src/client/socket-client.js`:

* `connectEv` — lines 27–33: drain `_offlineQueue` front-to-back,
  emitting each payload;
* `disconnectEv` — lines 40–42: pending requests left untouched;
* `sendRequest` — lines 89–113: register a fresh pending entry, then
  emit immediately when connected, else push onto `_offlineQueue`;
* `timeoutFire` — lines 95–98 / 81–84: delete the entry and reject with
  `RequestTimeout` (effective only while the entry exists — the timer
  is cleared on every deleting path, and double settlement of a promise
  is a no-op);
* `response` — lines 44–66: missing entry → return; accumulated chunks
  → resolve with the assembled array (the `result`/`error` fields are
  not consulted); otherwise reject on truthy `error`, else resolve with
  `result`; the entry is deleted in all three cases;
* `responseChunk` — lines 68–86: missing entry → return; otherwise
  store the chunk at its index, bump `receivedChunks`, record
  `totalChunks` when it is a number, and reset the timer. -/
def step {V : Type} (s : CState V) : CEvent V → CState V
  | .connectEv =>
      { s with
        connected := true
        offlineQueue := []
        log := s.log ++ s.offlineQueue.map Action.emitReq }
  | .disconnectEv => { s with connected := false }
  | .sendRequest env =>
      if s.connected then
        { s with
          pending := pset s.pending env.id (freshPending V)
          log := s.log ++ [Action.emitReq env] }
      else
        { s with
          pending := pset s.pending env.id (freshPending V)
          offlineQueue := s.offlineQueue ++ [env] }
  | .timeoutFire id =>
      match s.pending id with
      | none => s
      | some _ =>
          { s with
            pending := pdelete s.pending id
            log := s.log ++ [Action.reject id "RequestTimeout"] }
  | .response id result error =>
      match s.pending id with
      | none => s
      | some p =>
          match p.chunksMap with
          | some m =>
              { s with
                pending := pdelete s.pending id
                log := s.log ++ [Action.resolveChunks id (assembleChunks m)] }
          | none =>
              match error with
              | some msg =>
                  { s with
                    pending := pdelete s.pending id
                    log := s.log ++ [Action.reject id (errMessage msg)] }
              | none =>
                  { s with
                    pending := pdelete s.pending id
                    log := s.log ++ [Action.resolveResult id result] }
  | .responseChunk id chunk index total =>
      match s.pending id with
      | none => s
      | some p =>
          { s with
            pending := pset s.pending id
              { chunksMap := some (mapInsert (p.chunksMap.getD []) index chunk)
                receivedChunks := p.receivedChunks + 1
                totalChunks := total.or p.totalChunks } }

/-- Run the machine over a list of events. -/
def run {V : Type} (s : CState V) (es : List (CEvent V)) : CState V :=
  es.foldl step s

/-- State of a freshly constructed client: socket not yet connected,
empty correlation table, empty offline queue. -/
def initState (V : Type) : CState V :=
  { connected := false, pending := fun _ => none, offlineQueue := [], log := [] }

/-! ## Chunk-map theory

Pure facts about the assoc-list model of the JS `chunksMap` object:
what a sequence of index-keyed stores produces, and what sorting the
keys and flattening yields when the stored indices form a permutation
of `0..N-1`. -/

/-- The `chunksMap` produced by storing a sequence of `(index, chunk)`
pairs into an initially empty object, in delivery order. -/
def deliverChunks {V : Type} (msgs : List (Nat × List V)) : List (Nat × List V) :=
  msgs.foldl (fun m kv => mapInsert m kv.1 kv.2) []

theorem mapLookup_mapInsert_self {V : Type} (m : List (Nat × List V)) (k : Nat)
    (v : List V) : mapLookup (mapInsert m k v) k = some v := by
  induction m with
  | nil => simp [mapInsert, mapLookup]
  | cons kv rest ih =>
      obtain ⟨k', v'⟩ := kv
      by_cases h : k' = k <;> simp [mapInsert, mapLookup, h, ih]

theorem mapLookup_mapInsert_ne {V : Type} (m : List (Nat × List V)) (k k' : Nat)
    (v : List V) (h : k' ≠ k) :
    mapLookup (mapInsert m k v) k' = mapLookup m k' := by
  induction m with
  | nil => simp [mapInsert, mapLookup, Ne.symm h]
  | cons kv rest ih =>
      obtain ⟨k₀, v₀⟩ := kv
      by_cases h₀ : k₀ = k
      · subst h₀
        simp [mapInsert, mapLookup, Ne.symm h, h]
      · by_cases h₁ : k₀ = k'
        · simp [mapInsert, mapLookup, h₀, h₁, h]
        · simp [mapInsert, mapLookup, h₀, h₁, ih]

/-- The value left at key `k'` after a sequence of stores: the last
store to `k'` wins. -/
def lookupLast {V : Type} : List (Nat × List V) → Nat → Option (List V)
  | [], _ => none
  | (k, v) :: rest, k' =>
      match lookupLast rest k' with
      | some w => some w
      | none => if k = k' then some v else none

theorem mapLookup_foldl_mapInsert {V : Type} (msgs : List (Nat × List V)) :
    ∀ (m : List (Nat × List V)) (k : Nat),
      mapLookup (msgs.foldl (fun m kv => mapInsert m kv.1 kv.2) m) k =
        match lookupLast msgs k with
        | some w => some w
        | none => mapLookup m k := by
  induction msgs with
  | nil => intro m k; simp [lookupLast]
  | cons kv rest ih =>
      intro m k
      obtain ⟨k₀, v₀⟩ := kv
      rw [List.foldl_cons, ih]
      rcases h : lookupLast rest k with _ | w
      · simp only [lookupLast, h]
        by_cases hk : k₀ = k
        · subst hk; simp [mapLookup_mapInsert_self]
        · simp [hk, mapLookup_mapInsert_ne _ _ _ _ (Ne.symm hk)]
      · simp [lookupLast, h]

theorem lookupLast_graph {V : Type} (f : Nat → List V) (order : List Nat) (k : Nat) :
    lookupLast (order.map fun i => (i, f i)) k =
      if k ∈ order then some (f k) else none := by
  induction order with
  | nil => simp [lookupLast]
  | cons i rest ih =>
      simp only [List.map_cons, lookupLast, ih]
      by_cases hmem : k ∈ rest
      · simp [hmem]
      · by_cases hik : i = k
        · subst hik; simp [hmem]
        · simp [hmem, hik, Ne.symm hik]

theorem map_fst_mapInsert_fresh {V : Type} (m : List (Nat × List V)) (k : Nat)
    (v : List V) (h : mapLookup m k = none) :
    (mapInsert m k v).map Prod.fst = m.map Prod.fst ++ [k] := by
  induction m with
  | nil => simp [mapInsert]
  | cons kv rest ih =>
      obtain ⟨k₀, v₀⟩ := kv
      by_cases hk : k₀ = k
      · subst hk; simp [mapLookup] at h
      · simp only [mapLookup, hk, if_false] at h
        simp [mapInsert, hk, ih h]

theorem map_fst_foldl_mapInsert {V : Type} (msgs : List (Nat × List V)) :
    ∀ m : List (Nat × List V), (msgs.map Prod.fst).Nodup →
      (∀ k ∈ msgs.map Prod.fst, mapLookup m k = none) →
      (msgs.foldl (fun m kv => mapInsert m kv.1 kv.2) m).map Prod.fst =
        m.map Prod.fst ++ msgs.map Prod.fst := by
  induction msgs with
  | nil => intro m _ _; simp
  | cons kv rest ih =>
      intro m hnd hfresh
      obtain ⟨k₀, v₀⟩ := kv
      simp only [List.map_cons, List.nodup_cons] at hnd
      rw [List.foldl_cons]
      have hfresh₀ : mapLookup m k₀ = none := hfresh k₀ (by simp)
      have hrest : ∀ k ∈ rest.map Prod.fst, mapLookup (mapInsert m k₀ v₀) k = none := by
        intro k hk
        have hne : k ≠ k₀ := fun h => hnd.1 (h ▸ hk)
        rw [mapLookup_mapInsert_ne _ _ _ _ hne]
        exact hfresh k (by simp [hk])
      rw [ih (mapInsert m k₀ v₀) hnd.2 hrest,
        map_fst_mapInsert_fresh _ _ _ hfresh₀]
      simp

theorem flatMap_congr_mem {α β : Type} (l : List α) (f g : α → List β)
    (h : ∀ a ∈ l, f a = g a) : l.flatMap f = l.flatMap g := by
  induction l with
  | nil => rfl
  | cons a rest ih =>
      simp only [List.flatMap_cons, h a (by simp),
        ih fun b hb => h b (by simp [hb])]

/-- Assembling the chunk map built from any delivery order of the pairs
`(i, f i)` for `i` a permutation of `0..N-1` yields the concatenation
of the chunks in ascending index order. -/
theorem assembleChunks_deliverChunks {V : Type} (N : Nat) (f : Nat → List V)
    (order : List Nat) (hperm : order.Perm (List.range N)) :
    assembleChunks (deliverChunks (order.map fun i => (i, f i))) =
      (List.range N).flatMap f := by
  have hnd : order.Nodup := hperm.nodup_iff.mpr (List.nodup_range N)
  set msgs : List (Nat × List V) := order.map fun i => (i, f i) with hmsgs
  have hkeys : msgs.map Prod.fst = order := by
    rw [hmsgs, List.map_map]
    have hid : (Prod.fst ∘ fun i => (i, f i)) = id := rfl
    rw [hid, List.map_id]
  have hkeysD : (deliverChunks msgs).map Prod.fst = order := by
    rw [deliverChunks, map_fst_foldl_mapInsert msgs []
      (by rw [hkeys]; exact hnd) (by intro k _; rfl)]
    simp [hkeys]
  have hsorted : List.insertionSort (· ≤ ·) ((deliverChunks msgs).map Prod.fst) =
      List.range N := by
    refine List.eq_of_perm_of_sorted ?_ (List.sorted_insertionSort _ _)
      (List.sorted_le_range N)
    exact ((List.perm_insertionSort _ _).trans (hkeysD ▸ hperm))
  have hlook : ∀ i ∈ List.range N, mapLookup (deliverChunks msgs) i = some (f i) := by
    intro i hi
    rw [deliverChunks, mapLookup_foldl_mapInsert, lookupLast_graph]
    have : i ∈ order := hperm.mem_iff.mpr hi
    simp [this]
  rw [assembleChunks, hsorted]
  exact flatMap_congr_mem _ _ _ fun i hi => by rw [hlook i hi]; rfl

/-! ## Machine-level lemmas about the client -/

theorem pset_lookup_self {V : Type} (p : Nat → Option (Pending V)) (id : Nat)
    (e : Pending V) : pset p id e id = some e := by
  simp [pset]

theorem pset_self {V : Type} (p : Nat → Option (Pending V)) (id : Nat)
    (e : Pending V) (h : p id = some e) : pset p id e = p := by
  funext j
  by_cases hj : j = id
  · subst hj; simp [pset, h]
  · simp [pset, hj]

theorem pset_pset {V : Type} (p : Nat → Option (Pending V)) (id : Nat)
    (e e' : Pending V) : pset (pset p id e) id e' = pset p id e' := by
  funext j
  by_cases hj : j = id <;> simp [pset, hj]

theorem pdelete_lookup_self {V : Type} (p : Nat → Option (Pending V)) (id : Nat) :
    pdelete p id id = none := by
  simp [pdelete]

/-- Effect of a run consisting solely of `response-chunk` events for a
live request `id`: the only change to the state is the pending entry
for `id`, whose `chunksMap` accumulates the delivered `(index, chunk)`
stores in delivery order.  In particular no action is logged and the
offline queue, connection flag and every other pending entry are
untouched. -/
theorem run_responseChunks {V : Type} (id : Nat) (tot : Option Nat)
    (msgs : List (Nat × List V)) :
    ∀ (s : CState V) (p : Pending V), s.pending id = some p →
      ∃ p' : Pending V,
        run s (msgs.map fun kv => CEvent.responseChunk id kv.2 kv.1 tot) =
          { s with pending := pset s.pending id p' } ∧
        p'.chunksMap = (if msgs.isEmpty then p.chunksMap
          else some (msgs.foldl (fun m kv => mapInsert m kv.1 kv.2)
            (p.chunksMap.getD []))) := by
  induction msgs with
  | nil =>
      intro s p hp
      refine ⟨p, ?_, by simp⟩
      show s = _
      rw [pset_self s.pending id p hp]
  | cons kv rest ih =>
      intro s p hp
      obtain ⟨k₀, v₀⟩ := kv
      set p₁ : Pending V :=
        { chunksMap := some (mapInsert (p.chunksMap.getD []) k₀ v₀)
          receivedChunks := p.receivedChunks + 1
          totalChunks := tot.or p.totalChunks } with hp₁
      have hstep : step s (CEvent.responseChunk id v₀ k₀ tot) =
          { s with pending := pset s.pending id p₁ } := by
        simp [step, hp, hp₁]
      have hlive : ({ s with pending := pset s.pending id p₁ } : CState V).pending id =
          some p₁ := pset_lookup_self _ _ _
      obtain ⟨p', hrun, hmap⟩ := ih { s with pending := pset s.pending id p₁ } p₁ hlive
      refine ⟨p', ?_, ?_⟩
      · rw [List.map_cons, run, List.foldl_cons, hstep]
        show run _ _ = _
        rw [hrun]
        simp [pset_pset]
      · rw [hmap]
        rcases rest with _ | ⟨kv', rest'⟩

        · simp [hp₁]
        · simp [hp₁]

theorem pdelete_pset {V : Type} (p : Nat → Option (Pending V)) (id : Nat)
    (e : Pending V) : pdelete (pset p id e) id = pdelete p id := by
  funext j
  by_cases hj : j = id <;> simp [pdelete, pset, hj]

/-! ## Claim C2 -/

/-- C2: for every `N ≥ 1` and every permutation of `N` chunk envelopes
whose indices cover `0..N-1` exactly once, delivering them to the
client in that permuted order followed by the terminal response makes
the pending request resolve with the concatenation of the chunks in
ascending index order — the resolved value is invariant under the
delivery permutation.  (Stated as a full-state equation: the only
effects of the run are deleting the pending entry and logging the single
resolution; any `result`/`error` fields of the terminal response are
irrelevant.) -/
theorem chunk_stream_permutation_invariant {V : Type} (N : Nat) (hN : 1 ≤ N)
    (f : Nat → List V) (order : List Nat) (hperm : order.Perm (List.range N))
    (s : CState V) (id : Nat) (p : Pending V) (hp : s.pending id = some p)
    (hfresh : p.chunksMap = none) (r : Option V) (e : Option String) :
    run s ((order.map fun i => CEvent.responseChunk id (f i) i (some N)) ++
        [CEvent.response id r e]) =
      { s with
        pending := pdelete s.pending id
        log := s.log ++ [Action.resolveChunks id ((List.range N).flatMap f)] } := by
  set msgs : List (Nat × List V) := order.map fun i => (i, f i) with hmsgs
  have hmapev : (order.map fun i => CEvent.responseChunk id (f i) i (some N)) =
      msgs.map fun kv => CEvent.responseChunk id kv.2 kv.1 (some N) := by
    rw [hmsgs, List.map_map]
    rfl
  obtain ⟨p', hrun, hchunks⟩ := run_responseChunks id (some N) msgs s p hp
  have horder : order ≠ [] := by
    intro h
    have := hperm.length_eq
    rw [h, List.length_nil, List.length_range] at this
    omega
  have hne : msgs.isEmpty = false := by
    rw [hmsgs, List.isEmpty_eq_false]
    simpa using horder
  have hchunks' : p'.chunksMap = some (deliverChunks msgs) := by
    rw [hchunks, hne, hfresh]
    simp [deliverChunks]
  rw [hmapev, run, List.foldl_append]
  have hmid : run s (msgs.map fun kv => CEvent.responseChunk id kv.2 kv.1 (some N)) =
      { s with pending := pset s.pending id p' } := hrun
  rw [run] at hmid
  rw [hmid, List.foldl_cons, List.foldl_nil]
  show step _ _ = _
  simp only [step, pset_lookup_self, hchunks']
  rw [pdelete_pset,
    assembleChunks_deliverChunks N f order hperm]

/-- Witness for C2: two chunks delivered in reversed order
(index 1 then index 0) still resolve to the ascending-index
concatenation `[1, 2]`. -/
theorem chunk_stream_permutation_invariant_witness :
    run (step (step (initState Nat) CEvent.connectEv)
          (CEvent.sendRequest ⟨7, "search", [], 0⟩))
        [CEvent.responseChunk 7 [2] 1 (some 2),
         CEvent.responseChunk 7 [1] 0 (some 2),
         CEvent.response 7 none none] =
      { connected := true
        pending := pdelete (pset (fun _ => none) 7 (freshPending Nat)) 7
        offlineQueue := []
        log := [Action.emitReq ⟨7, "search", [], 0⟩,
                Action.resolveChunks 7 [1, 2]] } := by
  exact chunk_stream_permutation_invariant 2 (by decide) (fun i => [i + 1]) [1, 0]
    (by decide) _ 7 (freshPending Nat) rfl rfl none none

/-! ## Claim C1 -/

/-- C1 counterexample: a pending request receives only the chunk at
index 1 (with `totalChunks = 2`, so index 0 is missing — a gap).  When
the terminal response arrives, the client resolves with `[42]` — the
partial concatenation — instead of failing with a `StreamIncomplete`
error as the claim demands: the "response" handler never checks
contiguity of the accumulated indices, and no `StreamIncomplete` error
kind exists anywhere in the client. -/
theorem stream_gap_resolves_counterexample :
    (run (initState Nat)
      [CEvent.connectEv,
       CEvent.sendRequest ⟨7, "q", [], 0⟩,
       CEvent.responseChunk 7 [42] 1 (some 2),
       CEvent.response 7 none none]).log =
      [Action.emitReq ⟨7, "q", [], 0⟩, Action.resolveChunks 7 [42]] := by
  rfl

/-- C1 amended: for every pending request that accumulated at least one
chunk, the terminal response resolves the request with the
concatenation of the chunks ordered by ascending index — including
when the accumulated indices are not contiguous from 0.  No contiguity
check is performed and no `StreamIncomplete` failure exists: the
chunked path never rejects. -/
theorem response_with_accumulated_chunks_resolves {V : Type} (s : CState V)
    (id : Nat) (p : Pending V) (m : List (Nat × List V))
    (hp : s.pending id = some p) (hm : p.chunksMap = some m)
    (r : Option V) (e : Option String) :
    step s (CEvent.response id r e) =
      { s with
        pending := pdelete s.pending id
        log := s.log ++ [Action.resolveChunks id (assembleChunks m)] } := by
  simp [step, hp, hm]

/-- Witness for C1 (amended): the gap input of the counterexample run
through the amended theorem. -/
theorem response_with_accumulated_chunks_resolves_witness :
    step (run (initState Nat)
        [CEvent.connectEv,
         CEvent.sendRequest ⟨7, "q", [], 0⟩,
         CEvent.responseChunk 7 [42] 1 (some 2)])
      (CEvent.response 7 none none) =
      { run (initState Nat)
          [CEvent.connectEv,
           CEvent.sendRequest ⟨7, "q", [], 0⟩,
           CEvent.responseChunk 7 [42] 1 (some 2)] with
        pending := pdelete (run (initState Nat)
          [CEvent.connectEv,
           CEvent.sendRequest ⟨7, "q", [], 0⟩,
           CEvent.responseChunk 7 [42] 1 (some 2)]).pending 7
        log := [Action.emitReq ⟨7, "q", [], 0⟩,
                Action.resolveChunks 7 (assembleChunks [(1, [42])])] } := by
  exact response_with_accumulated_chunks_resolves _ 7
    { chunksMap := some [(1, [42])], receivedChunks := 1, totalChunks := some 2 }
    [(1, [42])] rfl rfl none none

/-! ## Claim C9 -/

/-- C9: for every pending request that has accumulated at least one
chunk, a terminal response whose `error` field is non-null still
*resolves* (not rejects) the request with the concatenation of the
accumulated chunks: the chunked branch of the "response" handler
never inspects `error`, so a server-reported error after chunks is
invisible to the caller — the log gains exactly one `resolveChunks`
action and no `reject`. -/
theorem error_response_after_chunks_still_resolves {V : Type} (s : CState V)
    (id : Nat) (p : Pending V) (m : List (Nat × List V)) (msg : String)
    (hp : s.pending id = some p) (hm : p.chunksMap = some m) (r : Option V) :
    (step s (CEvent.response id r (some msg))).log =
        s.log ++ [Action.resolveChunks id (assembleChunks m)] ∧
      (step s (CEvent.response id r (some msg))).pending id = none ∧
      step s (CEvent.response id r (some msg)) =
        step s (CEvent.response id r none) := by
  refine ⟨?_, ?_, ?_⟩
  · simp [step, hp, hm]
  · simp [step, hp, hm, pdelete_lookup_self]
  · simp [step, hp, hm]

/-- Witness for C9: a response carrying `error.message = "boom"` after
one chunk resolves with the chunk data; the error is ignored. -/
theorem error_response_after_chunks_still_resolves_witness :
    (step (run (initState Nat)
        [CEvent.connectEv,
         CEvent.sendRequest ⟨3, "q", [], 0⟩,
         CEvent.responseChunk 3 [5, 6] 0 (some 1)])
      (CEvent.response 3 none (some "boom"))).log =
        [Action.emitReq ⟨3, "q", [], 0⟩,
         Action.resolveChunks 3 (assembleChunks [(0, [5, 6])])] ∧
      (step (run (initState Nat)
        [CEvent.connectEv,
         CEvent.sendRequest ⟨3, "q", [], 0⟩,
         CEvent.responseChunk 3 [5, 6] 0 (some 1)])
      (CEvent.response 3 none (some "boom"))).pending 3 = none ∧
      step (run (initState Nat)
        [CEvent.connectEv,
         CEvent.sendRequest ⟨3, "q", [], 0⟩,
         CEvent.responseChunk 3 [5, 6] 0 (some 1)])
      (CEvent.response 3 none (some "boom")) =
      step (run (initState Nat)
        [CEvent.connectEv,
         CEvent.sendRequest ⟨3, "q", [], 0⟩,
         CEvent.responseChunk 3 [5, 6] 0 (some 1)])
      (CEvent.response 3 none none) := by
  exact error_response_after_chunks_still_resolves _ 3
    { chunksMap := some [(0, [5, 6])], receivedChunks := 1, totalChunks := some 1 }
    [(0, [5, 6])] "boom" rfl rfl none

/-! ## Claim C3 -/

theorem pset_lookup_ne {V : Type} (p : Nat → Option (Pending V)) (id j : Nat)
    (e : Pending V) (h : j ≠ id) : pset p id e j = p j := by
  simp [pset, h]

theorem pdelete_lookup_ne {V : Type} (p : Nat → Option (Pending V)) (id j : Nat)
    (h : j ≠ id) : pdelete p id j = p j := by
  simp [pdelete, h]

/-- Actions that settle (resolve or reject) the promise of request `id`. -/
def isResolutionFor {V : Type} (id : Nat) : Action V → Bool
  | .emitReq _ => false
  | .resolveResult j _ => j == id
  | .resolveChunks j _ => j == id
  | .reject j _ => j == id

/-- Events that (re)create a pending entry for `id`: only a
`sendRequest` whose envelope carries that id. -/
def createsPending {V : Type} (id : Nat) : CEvent V → Bool
  | .sendRequest env => env.id == id
  | _ => false

theorem filter_isResolutionFor_map_emitReq {V : Type} (id : Nat)
    (q : List (Envelope V)) :
    (q.map Action.emitReq).filter (isResolutionFor id) = [] := by
  induction q with
  | nil => rfl
  | cons env rest ih => simp [isResolutionFor, ih]

/-- Once the pending entry for `id` is gone, any run that never calls
`sendRequest` with that id keeps it gone and settles its promise no
further: the log gains no resolution, rejection or timeout action for
`id`. -/
theorem run_no_resolution_when_absent {V : Type} (id : Nat)
    (es : List (CEvent V)) :
    ∀ s : CState V, s.pending id = none →
      (∀ ev ∈ es, createsPending id ev = false) →
      (run s es).pending id = none ∧
      (run s es).log.filter (isResolutionFor id) =
        s.log.filter (isResolutionFor id) := by
  induction es with
  | nil => intro s hs _; exact ⟨hs, rfl⟩
  | cons ev rest ih =>
      intro s hs hno
      have hnoRest : ∀ e ∈ rest, createsPending id e = false :=
        fun e he => hno e (by simp [he])
      have hgoal : (step s ev).pending id = none ∧
          (step s ev).log.filter (isResolutionFor id) =
            s.log.filter (isResolutionFor id) := by
        cases ev with
        | connectEv =>
            refine ⟨hs, ?_⟩
            simp [step, List.filter_append, filter_isResolutionFor_map_emitReq]
        | disconnectEv => exact ⟨hs, rfl⟩
        | sendRequest env =>
            have hne : env.id ≠ id := by
              have := hno (CEvent.sendRequest env) (by simp)
              simpa [createsPending] using this
            by_cases hc : s.connected
            · refine ⟨?_, ?_⟩
              · simp only [step, if_pos hc]
                rw [pset_lookup_ne _ _ _ _ (Ne.symm hne)]
                exact hs
              · simp [step, hc, List.filter_append, isResolutionFor]
            · refine ⟨?_, ?_⟩
              · simp only [step, if_neg hc]
                rw [pset_lookup_ne _ _ _ _ (Ne.symm hne)]
                exact hs
              · simp [step, hc]
        | timeoutFire j =>
            by_cases hj : j = id
            · subst hj
              have hstep : step s (CEvent.timeoutFire j) = s := by
                simp [step, hs]
              rw [hstep]
              exact ⟨hs, rfl⟩
            · cases hpj : s.pending j with
              | none =>
                  have hstep : step s (CEvent.timeoutFire j) = s := by
                    simp [step, hpj]
                  rw [hstep]
                  exact ⟨hs, rfl⟩
              | some p =>
                  refine ⟨?_, ?_⟩
                  · simp only [step, hpj]
                    rw [pdelete_lookup_ne _ _ _ (Ne.symm hj)]
                    exact hs
                  · simp [step, hpj, List.filter_append, isResolutionFor,
                      Ne.symm hj, hj]
        | response j r e =>
            by_cases hj : j = id
            · subst hj
              have hstep : step s (CEvent.response j r e) = s := by
                simp [step, hs]
              rw [hstep]
              exact ⟨hs, rfl⟩
            · cases hpj : s.pending j with
              | none =>
                  have hstep : step s (CEvent.response j r e) = s := by
                    simp [step, hpj]
                  rw [hstep]
                  exact ⟨hs, rfl⟩
              | some p =>
                  cases hm : p.chunksMap with
                  | some m =>
                      refine ⟨?_, ?_⟩
                      · simp only [step, hpj, hm]
                        rw [pdelete_lookup_ne _ _ _ (Ne.symm hj)]
                        exact hs
                      · simp [step, hpj, hm, List.filter_append, isResolutionFor, hj]
                  | none =>
                      cases e with
                      | some msg =>
                          refine ⟨?_, ?_⟩
                          · simp only [step, hpj, hm]
                            rw [pdelete_lookup_ne _ _ _ (Ne.symm hj)]
                            exact hs
                          · simp [step, hpj, hm, List.filter_append,
                              isResolutionFor, hj]
                      | none =>
                          refine ⟨?_, ?_⟩
                          · simp only [step, hpj, hm]
                            rw [pdelete_lookup_ne _ _ _ (Ne.symm hj)]
                            exact hs
                          · simp [step, hpj, hm, List.filter_append,
                              isResolutionFor, hj]
        | responseChunk j c i t =>
            by_cases hj : j = id
            · subst hj
              have hstep : step s (CEvent.responseChunk j c i t) = s := by
                simp [step, hs]
              rw [hstep]
              exact ⟨hs, rfl⟩
            · cases hpj : s.pending j with
              | none =>
                  have hstep : step s (CEvent.responseChunk j c i t) = s := by
                    simp [step, hpj]
                  rw [hstep]
                  exact ⟨hs, rfl⟩
              | some p =>
                  refine ⟨?_, ?_⟩
                  · simp only [step, hpj]
                    rw [pset_lookup_ne _ _ _ _ (Ne.symm hj)]
                    exact hs
                  · simp [step, hpj]
      obtain ⟨h₁, h₂⟩ := hgoal
      have := ih (step s ev) h₁ hnoRest
      exact ⟨this.1, this.2.trans h₂⟩

/-- C3: for every request id at most one resolution path fires.
Whichever of the timeout or the terminal response happens first deletes
the pending entry (first two conjuncts); once the entry is gone, a
`response` or `response-chunk` event carrying the same id leaves the
state bit-for-bit unchanged — it neither resolves, rejects, nor
recreates the entry — and an arbitrary following event sequence that
contains no new `sendRequest` for that id never settles the promise
again (last conjunct). -/
theorem single_resolution_per_id {V : Type} (s : CState V) (id : Nat)
    (r : Option V) (e : Option String) (c : List V) (i : Nat) (t : Option Nat)
    (es : List (CEvent V)) :
    ((s.pending id).isSome →
      (step s (CEvent.timeoutFire id)).pending id = none ∧
      (step s (CEvent.response id r e)).pending id = none) ∧
    (s.pending id = none →
      step s (CEvent.response id r e) = s ∧
      step s (CEvent.responseChunk id c i t) = s ∧
      ((∀ ev ∈ es, createsPending id ev = false) →
        (run s es).pending id = none ∧
        (run s es).log.filter (isResolutionFor id) =
          s.log.filter (isResolutionFor id))) := by
  constructor
  · intro hsome
    obtain ⟨p, hp⟩ := Option.isSome_iff_exists.mp hsome
    constructor
    · simp [step, hp, pdelete_lookup_self]
    · cases hm : p.chunksMap with
      | some m => simp [step, hp, hm, pdelete_lookup_self]
      | none =>
          cases e with
          | some msg => simp [step, hp, hm, pdelete_lookup_self]
          | none => simp [step, hp, hm, pdelete_lookup_self]
  · intro hnone
    refine ⟨by simp [step, hnone], by simp [step, hnone], ?_⟩
    exact run_no_resolution_when_absent id es s hnone

/-- Witness for C3: a live request times out (entry deleted), after
which a late response, a late chunk and a whole trailing event sequence
are all no-ops. -/
theorem single_resolution_per_id_witness :
    let s := run (initState Nat)
      [CEvent.connectEv, CEvent.sendRequest ⟨4, "m", [], 0⟩,
       CEvent.timeoutFire 4]
    ((s.pending 4).isSome →
      (step s (CEvent.timeoutFire 4)).pending 4 = none ∧
      (step s (CEvent.response 4 (some 1) none)).pending 4 = none) ∧
    (s.pending 4 = none →
      step s (CEvent.response 4 (some 1) none) = s ∧
      step s (CEvent.responseChunk 4 [9] 0 (some 1)) = s ∧
      ((∀ ev ∈ [CEvent.response 4 (some 1) none,
                CEvent.responseChunk 4 [9] 0 (some 1)],
          createsPending 4 ev = false) →
        (run s [CEvent.response 4 (some 1) none,
                CEvent.responseChunk 4 [9] 0 (some 1)]).pending 4 = none ∧
        (run s [CEvent.response 4 (some 1) none,
                CEvent.responseChunk 4 [9] 0 (some 1)]).log.filter
            (isResolutionFor 4) =
          s.log.filter (isResolutionFor 4))) := by
  exact single_resolution_per_id _ 4 (some 1) none [9] 0 (some 1) _

/-! ## Claim C4 -/

/-- Sends performed while the socket is disconnected only append to
the offline queue (in call order) and register pending entries; nothing
is emitted and the connection flag stays down. -/
theorem run_sendRequests_disconnected {V : Type} (envs : List (Envelope V)) :
    ∀ s : CState V, s.connected = false →
      (run s (envs.map CEvent.sendRequest)).connected = false ∧
      (run s (envs.map CEvent.sendRequest)).offlineQueue =
        s.offlineQueue ++ envs ∧
      (run s (envs.map CEvent.sendRequest)).log = s.log := by
  induction envs with
  | nil => intro s h; exact ⟨h, by simp [run], rfl⟩
  | cons env rest ih =>
      intro s h
      have hstep : step s (CEvent.sendRequest env) =
          { s with
            pending := pset s.pending env.id (freshPending V)
            offlineQueue := s.offlineQueue ++ [env] } := by
        simp [step, h]
      rw [List.map_cons, run, List.foldl_cons, hstep]
      have := ih { s with
        pending := pset s.pending env.id (freshPending V)
        offlineQueue := s.offlineQueue ++ [env] } h
      rw [run] at this
      refine ⟨this.1, ?_, this.2.2⟩
      rw [this.2.1]
      simp

/-- C4: a `sendRequest` made while the socket is disconnected appends
the envelope to the offline queue instead of failing (first two
conjuncts: the queue grows in FIFO submission order and nothing is
emitted yet), and the next `connect` event emits every queued envelope
exactly once, in submission order relative to the other queued
requests, leaving the queue empty. -/
theorem offline_queue_fifo_drain {V : Type} (envs : List (Envelope V))
    (s : CState V) (h : s.connected = false) :
    (run s (envs.map CEvent.sendRequest)).offlineQueue =
        s.offlineQueue ++ envs ∧
      (run s (envs.map CEvent.sendRequest)).log = s.log ∧
      (step (run s (envs.map CEvent.sendRequest)) CEvent.connectEv).offlineQueue
        = [] ∧
      (step (run s (envs.map CEvent.sendRequest)) CEvent.connectEv).log =
        s.log ++ (s.offlineQueue ++ envs).map Action.emitReq ∧
      (step (run s (envs.map CEvent.sendRequest)) CEvent.connectEv).connected
        = true := by
  obtain ⟨h₁, h₂, h₃⟩ := run_sendRequests_disconnected envs s h
  refine ⟨h₂, h₃, rfl, ?_, rfl⟩
  show (run s (envs.map CEvent.sendRequest)).log ++ _ = _
  rw [h₂, h₃]

/-- Witness for C4: two requests queued while disconnected are emitted
in order on connect and the queue ends empty. -/
theorem offline_queue_fifo_drain_witness :
    (run (initState Nat)
        (([⟨1, "a", [], 0⟩, ⟨2, "b", [], 0⟩] : List (Envelope Nat)).map CEvent.sendRequest)).offlineQueue
        = [] ++ [⟨1, "a", [], 0⟩, ⟨2, "b", [], 0⟩] ∧
      (run (initState Nat)
        (([⟨1, "a", [], 0⟩, ⟨2, "b", [], 0⟩] : List (Envelope Nat)).map CEvent.sendRequest)).log = [] ∧
      (step (run (initState Nat)
          (([⟨1, "a", [], 0⟩, ⟨2, "b", [], 0⟩] : List (Envelope Nat)).map CEvent.sendRequest))
        CEvent.connectEv).offlineQueue = [] ∧
      (step (run (initState Nat)
          (([⟨1, "a", [], 0⟩, ⟨2, "b", [], 0⟩] : List (Envelope Nat)).map CEvent.sendRequest))
        CEvent.connectEv).log =
        [] ++ ([] ++ ([⟨1, "a", [], 0⟩, ⟨2, "b", [], 0⟩] : List (Envelope Nat))).map Action.emitReq ∧
      (step (run (initState Nat)
          (([⟨1, "a", [], 0⟩, ⟨2, "b", [], 0⟩] : List (Envelope Nat)).map CEvent.sendRequest))
        CEvent.connectEv).connected = true := by
  exact offline_queue_fifo_drain
    ([⟨1, "a", [], 0⟩, ⟨2, "b", [], 0⟩] : List (Envelope Nat)) (initState Nat) rfl

/-! ## Claim C10 -/

/-- C10: when the timeout of a request queued while disconnected fires,
only the pending entry is deleted and the promise rejected with
`RequestTimeout`; the offline queue is untouched, so the already
timed-out envelope is still emitted on the next `connect`, and its
eventual response is then ignored (a bit-for-bit no-op). -/
theorem timeout_leaves_offline_queue_untouched {V : Type} (s : CState V)
    (env : Envelope V) (h : s.connected = false) (r : Option V)
    (e : Option String) :
    (step (step s (CEvent.sendRequest env)) (CEvent.timeoutFire env.id)).offlineQueue
        = s.offlineQueue ++ [env] ∧
      (step (step s (CEvent.sendRequest env)) (CEvent.timeoutFire env.id)).pending
        env.id = none ∧
      (step (step s (CEvent.sendRequest env)) (CEvent.timeoutFire env.id)).log =
        s.log ++ [Action.reject env.id "RequestTimeout"] ∧
      (step (step (step s (CEvent.sendRequest env)) (CEvent.timeoutFire env.id))
          CEvent.connectEv).log =
        s.log ++ [Action.reject env.id "RequestTimeout"] ++
          (s.offlineQueue ++ [env]).map Action.emitReq ∧
      step (step (step (step s (CEvent.sendRequest env))
          (CEvent.timeoutFire env.id)) CEvent.connectEv)
        (CEvent.response env.id r e) =
      step (step (step s (CEvent.sendRequest env)) (CEvent.timeoutFire env.id))
        CEvent.connectEv := by
  have hsend : step s (CEvent.sendRequest env) =
      { s with
        pending := pset s.pending env.id (freshPending V)
        offlineQueue := s.offlineQueue ++ [env] } := by
    simp [step, h]
  have hfire : step (step s (CEvent.sendRequest env))
      (CEvent.timeoutFire env.id) =
      { s with
        pending := pdelete s.pending env.id
        offlineQueue := s.offlineQueue ++ [env]
        log := s.log ++ [Action.reject env.id "RequestTimeout"] } := by
    rw [hsend]
    simp [step, pset_lookup_self, pdelete_pset]
  refine ⟨by rw [hfire], by rw [hfire]; exact pdelete_lookup_self _ _, by rw [hfire], ?_, ?_⟩
  · rw [hfire]
    show _ ++ _ = _
    simp [step]
  · rw [hfire]
    simp [step, pdelete_lookup_self]

/-- Witness for C10: a request queued while offline, timed out, then
replayed on connect; the late response for it is ignored. -/
theorem timeout_leaves_offline_queue_untouched_witness :
    (step (step (initState Nat) (CEvent.sendRequest ⟨9, "m", [], 0⟩))
        (CEvent.timeoutFire 9)).offlineQueue = [] ++ [⟨9, "m", [], 0⟩] ∧
      (step (step (initState Nat) (CEvent.sendRequest ⟨9, "m", [], 0⟩))
        (CEvent.timeoutFire 9)).pending 9 = none ∧
      (step (step (initState Nat) (CEvent.sendRequest ⟨9, "m", [], 0⟩))
        (CEvent.timeoutFire 9)).log =
        [] ++ [Action.reject 9 "RequestTimeout"] ∧
      (step (step (step (initState Nat) (CEvent.sendRequest ⟨9, "m", [], 0⟩))
          (CEvent.timeoutFire 9)) CEvent.connectEv).log =
        [] ++ [Action.reject 9 "RequestTimeout"] ++
          ([] ++ ([⟨9, "m", [], 0⟩] : List (Envelope Nat))).map Action.emitReq ∧
      step (step (step (step (initState Nat)
          (CEvent.sendRequest ⟨9, "m", [], 0⟩)) (CEvent.timeoutFire 9))
          CEvent.connectEv) (CEvent.response 9 (some 5) none) =
      step (step (step (initState Nat) (CEvent.sendRequest ⟨9, "m", [], 0⟩))
        (CEvent.timeoutFire 9)) CEvent.connectEv := by
  exact timeout_leaves_offline_queue_untouched (initState Nat) ⟨9, "m", [], 0⟩
    rfl (some 5) none

/-!
## Server: mutation-burst autosave scheduler

Embedding of the auto-save machinery of `VectoriaDBServer`
(`src/server/vectoriadb-server.js` lines 17–44 and 216–287).
Timestamps are `Date.now()` values, modelled as `Nat`; the JS
subtraction `now - windowMs` can go negative while `Nat` subtraction
truncates at 0, but both make the comparison `ts < cutoff`
(resp. `ts >= cutoff`) trivially false (resp. true) for every
timestamp `ts ≥ 0`, so the behaviours coincide.  The engine method
`saveToStorage()` is an external fallible call; its outcome is passed
in as a boolean `ok` (the `catch` branch of `_saveToStorage` logs and
leaves `_lastSaveAt` unchanged).  The `_savingInProgress` flag is set
and cleared within a single (sequential) `_saveToStorage` run, so a
completed call leaves it as it was; it is carried in the state to model
the re-entrancy guard.  Engine persistence calls and flush attempts
are recorded in observation lists. -/

/-- The configurable auto-save options (constructor, lines 17–24),
restricted to what the scheduler reads. -/
structure SConfig where
  autoSaveOnInactivity : Bool
  mutationBurstThreshold : Nat
  mutationBurstWindowMs : Nat
  mutationInactivityMs : Nat
  minSaveIntervalMs : Nat
  deriving Repr, DecidableEq

/-- Defaults from the constructor: burst mode, threshold 5, window
2 min, inactivity 30 s, min save interval 10 s. -/
def defaultSConfig : SConfig :=
  { autoSaveOnInactivity := false
    mutationBurstThreshold := 5
    mutationBurstWindowMs := 2 * 60 * 1000
    mutationInactivityMs := 30 * 1000
    minSaveIntervalMs := 10 * 1000 }

/-- Scheduler state: `_mutationTimestamps`, `_lastBurstAt`,
`_savingInProgress`, `_lastSaveAt`, plus two observation logs:
`saveCalls` records the time of every actual engine
`saveToStorage()` invocation, and `flushAttempts` records the
`reason` string of every entry into the guarded `_saveToStorage`
path. -/
structure SchedState where
  mutationTimestamps : List Nat
  lastBurstAt : Nat
  savingInProgress : Bool
  lastSaveAt : Nat
  saveCalls : List Nat
  saveSuccesses : List Nat
  flushAttempts : List String
  deriving Repr, DecidableEq

/-- Scheduler state of a freshly constructed server (lines 40–44). -/
def initSched : SchedState :=
  { mutationTimestamps := []
    lastBurstAt := 0
    savingInProgress := false
    lastSaveAt := 0
    saveCalls := []
    saveSuccesses := []
    flushAttempts := [] }

/-- The purge loop of `_recordMutation` (lines 226–228):
`while (len && ts[0] < cutoff) shift()`. -/
def purgeOld : List Nat → Nat → List Nat
  | [], _ => []
  | t :: rest, cutoff => if t < cutoff then purgeOld rest cutoff else t :: rest

/-- Models `_recordMutation` (lines 221–233): push `now`, purge entries older
than the burst window, and mark `_lastBurstAt` when the retained count
reaches the threshold.  (The `_scheduleInactivityTimer` call is
modelled by the separate `onInactivityTimeout` transition.) -/
def recordMutation (cfg : SConfig) (s : SchedState) (now : Nat) : SchedState :=
  let ts := purgeOld (s.mutationTimestamps ++ [now]) (now - cfg.mutationBurstWindowMs)
  { s with
    mutationTimestamps := ts
    lastBurstAt := if cfg.mutationBurstThreshold ≤ ts.length then now else s.lastBurstAt }

/-- Models `_saveToStorage` (lines 272–287): re-entrancy guard, then
minimum-interval guard, then the actual engine call; `_lastSaveAt`
advances only when the engine call succeeds (`ok`), mirroring the
`catch` branch that skips the assignment.  Entering the function at
all is recorded as a flush attempt. -/
def saveToStorage (cfg : SConfig) (s : SchedState) (now : Nat) (ok : Bool)
    (reason : String) : SchedState :=
  let s := { s with flushAttempts := s.flushAttempts ++ [reason] }
  if s.savingInProgress then s
  else if now - s.lastSaveAt < cfg.minSaveIntervalMs then s
  else
    let s := { s with saveCalls := s.saveCalls ++ [now] }
    if ok then
      { s with lastSaveAt := now, saveSuccesses := s.saveSuccesses ++ [now] }
    else s

/-- Models `_onInactivityTimeout` (lines 246–270): in inactivity mode flush
whenever any mutation was recorded; in burst mode (default) count the
timestamps still inside the trailing window and flush only when the
count reaches the threshold.  Either way the history and
`_lastBurstAt` are reset. -/
def onInactivityTimeout (cfg : SConfig) (s : SchedState) (now : Nat)
    (ok : Bool) : SchedState :=
  if cfg.autoSaveOnInactivity then
    let s' := if 0 < s.mutationTimestamps.length
      then saveToStorage cfg s now ok "inactivity" else s
    { s' with mutationTimestamps := [], lastBurstAt := 0 }
  else
    let recentCount :=
      (s.mutationTimestamps.filter
        fun ts => now - cfg.mutationBurstWindowMs ≤ ts).length
    let s' := if cfg.mutationBurstThreshold ≤ recentCount
      then saveToStorage cfg s now ok "mutation-burst-inactivity" else s
    { s' with mutationTimestamps := [], lastBurstAt := 0 }

/-- Fold of `_recordMutation` over a list of mutation times. -/
def recordMutations (cfg : SConfig) (s : SchedState) (times : List Nat) :
    SchedState :=
  times.foldl (recordMutation cfg) s

/-! ## Claim C5 -/

/-- Entering `_saveToStorage` always records the flush attempt,
whatever the guards then decide. -/
theorem saveToStorage_flushAttempts (cfg : SConfig) (s : SchedState)
    (now : Nat) (ok : Bool) (reason : String) :
    (saveToStorage cfg s now ok reason).flushAttempts =
      s.flushAttempts ++ [reason] := by
  by_cases hp : s.savingInProgress
  · simp [saveToStorage, hp]
  · by_cases hmin : now - s.lastSaveAt < cfg.minSaveIntervalMs
    · simp [saveToStorage, hp, hmin]
    · cases ok <;> simp [saveToStorage, hp, hmin]

/-- C5: in burst mode, when the inactivity timer fires a persistence
flush is attempted iff the number of recorded mutation timestamps
within the trailing burst window reaches the threshold, and the
mutation history is cleared regardless (first two conjuncts, for any
burst-mode configuration and state).  With the default configuration
(`threshold = 5`, `window = 120000`), 4 mutating dispatches within 4 s
followed by the inactivity firing cause no flush attempt and no engine
call, while 5 cause exactly one engine call (remaining conjuncts). -/
theorem burst_mode_flush_iff_threshold (cfg : SConfig)
    (hb : cfg.autoSaveOnInactivity = false) (s : SchedState) (now : Nat)
    (ok : Bool) :
    ((onInactivityTimeout cfg s now ok).mutationTimestamps = [] ∧
      (onInactivityTimeout cfg s now ok).flushAttempts =
        s.flushAttempts ++
          (if cfg.mutationBurstThreshold ≤
              ((s.mutationTimestamps.filter
                fun ts => now - cfg.mutationBurstWindowMs ≤ ts).length)
            then ["mutation-burst-inactivity"] else [])) ∧
    ((onInactivityTimeout defaultSConfig
        (recordMutations defaultSConfig initSched [0, 1000, 2000, 3000])
        33000 true).saveCalls = [] ∧
      (onInactivityTimeout defaultSConfig
        (recordMutations defaultSConfig initSched [0, 1000, 2000, 3000])
        33000 true).flushAttempts = [] ∧
      (onInactivityTimeout defaultSConfig
        (recordMutations defaultSConfig initSched [0, 1000, 2000, 3000])
        33000 true).mutationTimestamps = []) ∧
    ((onInactivityTimeout defaultSConfig
        (recordMutations defaultSConfig initSched [0, 1000, 2000, 3000, 4000])
        34000 true).saveCalls = [34000] ∧
      (onInactivityTimeout defaultSConfig
        (recordMutations defaultSConfig initSched [0, 1000, 2000, 3000, 4000])
        34000 true).flushAttempts = ["mutation-burst-inactivity"] ∧
      (onInactivityTimeout defaultSConfig
        (recordMutations defaultSConfig initSched [0, 1000, 2000, 3000, 4000])
        34000 true).mutationTimestamps = []) := by
  refine ⟨?_, by decide, by decide⟩
  constructor
  · simp only [onInactivityTimeout, hb, Bool.false_eq_true, if_false]
  · simp only [onInactivityTimeout, hb, Bool.false_eq_true, if_false]
    split
    · exact saveToStorage_flushAttempts cfg s now ok _
    · simp

/-- Witness for C5 at the default configuration. -/
theorem burst_mode_flush_iff_threshold_witness :
    ((onInactivityTimeout defaultSConfig initSched 0 true).mutationTimestamps
        = [] ∧
      (onInactivityTimeout defaultSConfig initSched 0 true).flushAttempts =
        initSched.flushAttempts ++
          (if defaultSConfig.mutationBurstThreshold ≤
              ((initSched.mutationTimestamps.filter
                fun ts => 0 - defaultSConfig.mutationBurstWindowMs ≤ ts).length)
            then ["mutation-burst-inactivity"] else [])) ∧
    ((onInactivityTimeout defaultSConfig
        (recordMutations defaultSConfig initSched [0, 1000, 2000, 3000])
        33000 true).saveCalls = [] ∧
      (onInactivityTimeout defaultSConfig
        (recordMutations defaultSConfig initSched [0, 1000, 2000, 3000])
        33000 true).flushAttempts = [] ∧
      (onInactivityTimeout defaultSConfig
        (recordMutations defaultSConfig initSched [0, 1000, 2000, 3000])
        33000 true).mutationTimestamps = []) ∧
    ((onInactivityTimeout defaultSConfig
        (recordMutations defaultSConfig initSched [0, 1000, 2000, 3000, 4000])
        34000 true).saveCalls = [34000] ∧
      (onInactivityTimeout defaultSConfig
        (recordMutations defaultSConfig initSched [0, 1000, 2000, 3000, 4000])
        34000 true).flushAttempts = ["mutation-burst-inactivity"] ∧
      (onInactivityTimeout defaultSConfig
        (recordMutations defaultSConfig initSched [0, 1000, 2000, 3000, 4000])
        34000 true).mutationTimestamps = []) := by
  exact burst_mode_flush_iff_threshold defaultSConfig rfl initSched 0 true

/-! ## Claim C6 -/

/-- C6 counterexample: two flush triggers 1 ms apart (well under the
default `minSaveIntervalMs = 10000`) produce TWO engine persistence
calls when the first engine call fails: the `catch` branch of
`_saveToStorage` (lines 282–284) skips the `_lastSaveAt` update, so the
minimum-interval guard does not suppress the second trigger. -/
theorem min_interval_two_calls_counterexample :
    (saveToStorage defaultSConfig
        (saveToStorage defaultSConfig initSched 20000 false "manual")
        20001 true "manual").saveCalls = [20000, 20001] := by
  decide

/-- C6 amended: for two flush triggers less than `minSaveIntervalMs`
apart, at most one *successful* engine persistence call is made; and
whenever the engine call of the first trigger succeeds, the second trigger
is fully suppressed by the minimum-interval guard — it makes no engine
call at all and is dropped silently (only the attempt is logged;
nothing is queued).  (If the first call fails, the guard does not
advance `_lastSaveAt` and a second call may occur.) -/
theorem min_interval_at_most_one_success (cfg : SConfig) (s : SchedState)
    (t₁ t₂ : Nat) (ok₁ ok₂ : Bool) (r₁ r₂ : String) (h₁₂ : t₁ ≤ t₂)
    (hlt : t₂ < t₁ + cfg.minSaveIntervalMs) :
    (saveToStorage cfg (saveToStorage cfg s t₁ ok₁ r₁) t₂ ok₂ r₂).saveSuccesses.length
        ≤ s.saveSuccesses.length + 1 ∧
    (s.savingInProgress = false →
      cfg.minSaveIntervalMs ≤ t₁ - s.lastSaveAt → ok₁ = true →
      saveToStorage cfg (saveToStorage cfg s t₁ ok₁ r₁) t₂ ok₂ r₂ =
        { saveToStorage cfg s t₁ ok₁ r₁ with
          flushAttempts := (saveToStorage cfg s t₁ ok₁ r₁).flushAttempts ++ [r₂] }) := by
  constructor
  · by_cases hp : s.savingInProgress
    · have h₁ : saveToStorage cfg s t₁ ok₁ r₁ =
          { s with flushAttempts := s.flushAttempts ++ [r₁] } := by
        simp [saveToStorage, hp]
      rw [h₁]
      simp [saveToStorage, hp]
    · by_cases hmin₁ : t₁ - s.lastSaveAt < cfg.minSaveIntervalMs
      · have h₁ : saveToStorage cfg s t₁ ok₁ r₁ =
            { s with flushAttempts := s.flushAttempts ++ [r₁] } := by
          simp [saveToStorage, hp, hmin₁]
        rw [h₁]
        by_cases hmin₂ : t₂ - s.lastSaveAt < cfg.minSaveIntervalMs
        · simp [saveToStorage, hp, hmin₂]
        · by_cases hok₂ : ok₂ <;> simp [saveToStorage, hp, hmin₂, hok₂]
      · cases ok₁ with
        | true =>
            have h₁ : saveToStorage cfg s t₁ true r₁ =
                { s with
                  flushAttempts := s.flushAttempts ++ [r₁]
                  saveCalls := s.saveCalls ++ [t₁]
                  saveSuccesses := s.saveSuccesses ++ [t₁]
                  lastSaveAt := t₁ } := by
              simp [saveToStorage, hp, hmin₁]
            rw [h₁]
            have hmin₂ : t₂ - t₁ < cfg.minSaveIntervalMs := by omega
            simp [saveToStorage, hp, hmin₂]
        | false =>
            have h₁ : saveToStorage cfg s t₁ false r₁ =
                { s with
                  flushAttempts := s.flushAttempts ++ [r₁]
                  saveCalls := s.saveCalls ++ [t₁] } := by
              simp [saveToStorage, hp, hmin₁]
            rw [h₁]
            by_cases hmin₂ : t₂ - s.lastSaveAt < cfg.minSaveIntervalMs
            · simp [saveToStorage, hp, hmin₂]
            · by_cases hok₂ : ok₂ <;> simp [saveToStorage, hp, hmin₂, hok₂]
  · intro hp hmin₁ hok₁
    have hmin₁' : ¬(t₁ - s.lastSaveAt < cfg.minSaveIntervalMs) := by omega
    have h₁ : saveToStorage cfg s t₁ ok₁ r₁ =
        { s with
          flushAttempts := s.flushAttempts ++ [r₁]
          saveCalls := s.saveCalls ++ [t₁]
          saveSuccesses := s.saveSuccesses ++ [t₁]
          lastSaveAt := t₁ } := by
      simp [saveToStorage, hp, hmin₁', hok₁]
    rw [h₁]
    have hmin₂ : t₂ - t₁ < cfg.minSaveIntervalMs := by omega
    simp [saveToStorage, hp, hmin₂]

/-- Witness for C6 (amended): first trigger at t=20000 succeeds, the
second 1 ms later is suppressed — one successful call in total. -/
theorem min_interval_at_most_one_success_witness :
    (saveToStorage defaultSConfig
        (saveToStorage defaultSConfig initSched 20000 true "a")
        20001 true "b").saveSuccesses.length
        ≤ initSched.saveSuccesses.length + 1 ∧
    (initSched.savingInProgress = false →
      defaultSConfig.minSaveIntervalMs ≤ 20000 - initSched.lastSaveAt →
      true = true →
      saveToStorage defaultSConfig
          (saveToStorage defaultSConfig initSched 20000 true "a") 20001 true "b" =
        { saveToStorage defaultSConfig initSched 20000 true "a" with
          flushAttempts :=
            (saveToStorage defaultSConfig initSched 20000 true "a").flushAttempts
              ++ ["b"] }) := by
  exact min_interval_at_most_one_success defaultSConfig initSched 20000 20001
    true true "a" "b" (by decide) (by decide)

/-!
## Server: request dispatcher

Embedding of `VectoriaDBServer._handleRequest`
(`src/server/vectoriadb-server.js` lines 136–214) and the "request"
connection handler wrapping it (lines 96–103).  JS function
construction (`new Function("return (" + src + ")")`) is an external
operation that throws on malformed source; its outcome is abstracted
by an oracle `parses : String → Bool`.  The engine is abstracted by a
map from method name to `none` (not a function on the instance) or the
outcome of awaiting the call: an error message (engine throw or the
30 s `ServerTimeout` race) or a result value.  Time is passed in as
the `Date.now()` sample at receipt (`start`, line 142) and the sample
taken when the dispatch settles (`endT`, lines 195/211); the
`Date.now() - start` of the missing-method path (line 145) is the same
subtraction evaluated at its (immediate) emission time. -/

/-- A request parameter as the deserialization loop (lines 149–171)
distinguishes them: an ordinary value, a top-level tagged callable
`{ __isFnString: true, fn: src }`, an options object whose `filter`
field is such a tagged callable, or an options object whose `filter`
is a raw string (reparsed only when it trim-starts with
`"function"`). -/
inductive JParam where
  | plain
  | fnString (src : String)
  | optionsFilterFn (src : String)
  | optionsFilterStr (src : String)
  deriving Repr, DecidableEq

/-- A JS result value at the granularity the dispatcher inspects:
`null`/undefined, a scalar, an array of items, or the stream-complete
marker `{ streamed: true, count }`. -/
inductive JVal (V : Type) where
  | nullv
  | scalar (v : V)
  | arr (items : List V)
  | streamedMarker (count : Nat)
  deriving Repr, DecidableEq

/-- Events the dispatcher emits on the originating socket. -/
inductive SEmit (V : Type) where
  | chunk (id : Option Nat) (chunk : List V) (index : Nat) (totalChunks : Nat)
  | response (id : Option Nat) (result : JVal V) (error : Option String)
      (took : Nat)
  deriving Repr, DecidableEq

/-- One iteration of the `params.map` deserialization loop
(lines 149–171).  `parses src = false` models
`new Function("return (" + src + ")")` throwing on malformed source;
the thrown error escapes the loop (and `_handleRequest`, which has no
try around it), modelled as `Except.error`. -/
def reparseParam (parses : String → Bool) : JParam → Except String JParam
  | .plain => .ok .plain
  | .fnString src =>
      if parses src then .ok (.fnString src) else .error "SyntaxError"
  | .optionsFilterFn src =>
      if parses src then .ok (.optionsFilterFn src) else .error "SyntaxError"
  | .optionsFilterStr src =>
      if src.trim.startsWith "function" then
        if parses src then .ok (.optionsFilterStr src) else .error "SyntaxError"
      else .ok (.optionsFilterStr src)

/-- The whole `params.map(...)` call: evaluates parameters left to
right, the first throw aborting the request. -/
def reparseParams (parses : String → Bool) :
    List JParam → Except String (List JParam)
  | [] => .ok []
  | p :: rest => do
      let p' ← reparseParam parses p
      let rest' ← reparseParams parses rest
      pure (p' :: rest')

/-- A request payload that is an object: `{ id, method, params, … }`.
`id`/`method` may be absent (modelled as `Option`). -/
structure SPayload where
  id : Option Nat
  method : Option String
  params : List JParam
  deriving Repr, DecidableEq

/-- The chunk emission loop (lines 199–204): slices of `chunkSize`
items, indices `0, 1, …`, each carrying
`totalChunks = ⌈total / chunkSize⌉`. -/
def chunkEmits {V : Type} (id : Option Nat) (items : List V) (chunkSize : Nat) :
    List (SEmit V) :=
  let total := (items.length + chunkSize - 1) / chunkSize
  (List.range total).map fun j =>
    SEmit.chunk id ((items.drop (j * chunkSize)).take chunkSize) j total

/-- Models `_handleRequest` (lines 136–214).  `engine m = none` models
`typeof this._vectoria[m] !== "function"`; `engine m = some outcome`
the settlement of the awaited call.  Returns `Except.error` exactly when an
exception escapes `_handleRequest` itself (deserialization throw —
lines 149–171 sit *outside* the try/catch that starts at line 173);
every other path emits its own terminal response.  Mutation recording
(lines 187–193) belongs to the scheduler model above. -/
def handleRequest {V : Type} (parses : String → Bool)
    (engine : String → Option (Except String (JVal V))) (chunkSize : Nat)
    (payload : Option SPayload) (start endT : Nat) :
    Except String (List (SEmit V)) :=
  match payload with
  | none => .ok [SEmit.response none .nullv (some "Invalid payload") 0]
  | some pl =>
      match pl.method with
      | none =>
          .ok [SEmit.response pl.id .nullv (some "Missing method") (endT - start)]
      | some m =>
          match reparseParams parses pl.params with
          | .error e => .error e
          | .ok _ =>
              match engine m with
              | none =>
                  .ok [SEmit.response pl.id .nullv
                    (some ("MethodNotFound: " ++ m)) (endT - start)]
              | some (.error e) =>
                  .ok [SEmit.response pl.id .nullv (some e) (endT - start)]
              | some (.ok r) =>
                  match r with
                  | .arr items =>
                      if chunkSize < items.length then
                        .ok (chunkEmits pl.id items chunkSize ++
                          [SEmit.response pl.id
                            (.streamedMarker items.length) none (endT - start)])
                      else
                        .ok [SEmit.response pl.id (.arr items) none (endT - start)]
                  | r => .ok [SEmit.response pl.id r none (endT - start)]

/-- The "request" connection handler (lines 96–103): awaits
`_handleRequest` and, if it throws, emits a fallback response
`{ id: payload?.id ?? null, result: null, error: { message }, took: 0 }`. -/
def handleRequestEvent {V : Type} (parses : String → Bool)
    (engine : String → Option (Except String (JVal V))) (chunkSize : Nat)
    (payload : Option SPayload) (start endT : Nat) : List (SEmit V) :=
  match handleRequest parses engine chunkSize payload start endT with
  | .ok emits => emits
  | .error msg =>
      [SEmit.response (payload.bind (·.id)) .nullv (some msg) 0]

/-! ## Claim C7 -/

/-- A parameter whose embedded callable source the deserialization
loop will fail to reconstruct. -/
def isMalformed (parses : String → Bool) : JParam → Bool
  | .plain => false
  | .fnString src => !parses src
  | .optionsFilterFn src => !parses src
  | .optionsFilterStr src => src.trim.startsWith "function" && !parses src

theorem reparseParam_ok_of_not_malformed (parses : String → Bool) (p : JParam)
    (h : isMalformed parses p = false) :
    reparseParam parses p = .ok p := by
  cases p with
  | plain => rfl
  | fnString src =>
      simp only [isMalformed, Bool.not_eq_false'] at h
      simp [reparseParam, h]
  | optionsFilterFn src =>
      simp only [isMalformed, Bool.not_eq_false'] at h
      simp [reparseParam, h]
  | optionsFilterStr src =>
      by_cases hs : src.trim.startsWith "function"
      · simp only [isMalformed, hs, Bool.true_and, Bool.not_eq_false'] at h
        simp [reparseParam, hs, h]
      · simp [reparseParam, hs]

/-- A malformed callable anywhere in the parameter list makes the
whole `params.map` reparse throw. -/
theorem reparseParams_error_of_malformed (parses : String → Bool)
    (params : List JParam) (p : JParam) (hmem : p ∈ params)
    (hmal : isMalformed parses p = true) :
    reparseParams parses params = .error "SyntaxError" := by
  induction params with
  | nil => cases hmem
  | cons q rest ih =>
      by_cases hq : isMalformed parses q = true
      · have herr : reparseParam parses q = .error "SyntaxError" := by
          cases q with
          | plain => simp [isMalformed] at hq
          | fnString src =>
              simp only [isMalformed] at hq
              cases hps : parses src
              · simp [reparseParam, hps]
              · rw [hps] at hq; simp at hq
          | optionsFilterFn src =>
              simp only [isMalformed] at hq
              cases hps : parses src
              · simp [reparseParam, hps]
              · rw [hps] at hq; simp at hq
          | optionsFilterStr src =>
              simp only [isMalformed, Bool.and_eq_true] at hq
              obtain ⟨hs, hnp⟩ := hq
              cases hps : parses src
              · simp [reparseParam, hs, hps]
              · rw [hps] at hnp; simp at hnp
        simp only [reparseParams]
        rw [herr]
        rfl
      · have hok : reparseParam parses q = .ok q :=
          reparseParam_ok_of_not_malformed parses q (by
            cases h : isMalformed parses q
            · rfl
            · exact absurd h hq)
        have hmem' : p ∈ rest := by
          cases List.mem_cons.mp hmem with
          | inl h => exact absurd (h ▸ hmal) hq
          | inr h => exact h
        simp only [reparseParams]
        rw [hok, ih hmem']
        rfl

/-- C7: for every request envelope whose parameter list contains a
tagged callable payload with malformed (unparseable) source text, the
dispatcher emits exactly one terminal response envelope for that
request, carrying an error field — the request is neither dropped
silently nor does the connection handler crash (the deserialization
throw escapes `_handleRequest` and is converted by the outer
catch into the single error response). -/
theorem malformed_callable_single_error_response {V : Type}
    (parses : String → Bool) (engine : String → Option (Except String (JVal V)))
    (chunkSize : Nat) (pl : SPayload) (start endT : Nat) (p : JParam)
    (hmem : p ∈ pl.params) (hmal : isMalformed parses p = true) :
    ∃ rid msg took,
      handleRequestEvent parses engine chunkSize (some pl) start endT =
        [SEmit.response rid JVal.nullv (some msg) took] := by
  cases hm : pl.method with
  | none =>
      exact ⟨pl.id, "Missing method", endT - start, by
        simp [handleRequestEvent, handleRequest, hm]⟩
  | some m =>
      have herr := reparseParams_error_of_malformed parses pl.params p hmem hmal
      exact ⟨pl.id, "SyntaxError", 0, by
        simp [handleRequestEvent, handleRequest, hm, herr, Option.bind]⟩

/-- Witness for C7: a top-level tagged callable whose source never
parses yields exactly the single error response. -/
theorem malformed_callable_single_error_response_witness :
    ∃ rid msg took,
      handleRequestEvent (V := Nat) (fun _ => false) (fun _ => none) 500
          (some ⟨some 1, some "search", [JParam.fnString "oops("]⟩) 100 105 =
        [SEmit.response rid JVal.nullv (some msg) took] := by
  exact malformed_callable_single_error_response (fun _ => false) (fun _ => none)
    500 ⟨some 1, some "search", [JParam.fnString "oops("]⟩ 100 105
    (JParam.fnString "oops(") (by simp) (by decide)

/-! ## Claim C8 -/

/-- C8 counterexample: a request received at t=100 whose tagged
callable parameter fails to deserialize is answered at t=105 — 5 ms of
elapsed time — yet the emitted terminal response carries `took = 0`:
the deserialization throw escapes `_handleRequest` and the outer catch
(line 101) hard-codes `took: 0` instead of reporting the elapsed
time. -/
theorem took_zero_on_deserialization_failure_counterexample :
    handleRequestEvent (V := Nat) (fun _ => false) (fun _ => none) 500
        (some ⟨some 1, some "search", [JParam.fnString "oops("]⟩) 100 105 =
      [SEmit.response (some 1) JVal.nullv (some "SyntaxError") 0] ∧
    (105 : Nat) - 100 = 5 := by
  constructor
  · rfl
  · rfl

/-- No terminal response hides among the chunk emissions. -/
theorem response_not_mem_chunkEmits {V : Type} (id rid : Option Nat)
    (items : List V) (chunkSize : Nat) (res : JVal V) (err : Option String)
    (tk : Nat) : SEmit.response rid res err tk ∉ chunkEmits id items chunkSize := by
  intro hmem
  simp only [chunkEmits, List.mem_map] at hmem
  obtain ⟨j, _, hj⟩ := hmem
  cases hj

/-- C8 amended: the `took` field of the terminal response equals the
elapsed time `endT - start` for every dispatch whose failure (if any)
is raised inside the try/catch of `_handleRequest` — missing method, method
not found, engine error/timeout, plain success, and streamed success —
but NOT universally: a request whose parameter deserialization throws
escapes `_handleRequest` and is answered by the connection handler
via its outer catch with a hard-coded `took = 0`, and the invalid-payload path
likewise hard-codes `took = 0`. -/
theorem took_reports_elapsed_policy {V : Type} (parses : String → Bool)
    (engine : String → Option (Except String (JVal V))) (chunkSize : Nat)
    (pl : SPayload) (m : String) (start endT : Nat) (hm : pl.method = some m) :
    (∀ ps, reparseParams parses pl.params = Except.ok ps →
      ∀ rid res err tk,
        SEmit.response rid res err tk ∈
          handleRequestEvent parses engine chunkSize (some pl) start endT →
        tk = endT - start) ∧
    (∀ e, reparseParams parses pl.params = Except.error e →
      handleRequestEvent parses engine chunkSize (some pl) start endT =
        [SEmit.response pl.id JVal.nullv (some e) 0]) ∧
    handleRequestEvent parses engine chunkSize none start endT =
      [SEmit.response none JVal.nullv (some "Invalid payload") 0] := by
  refine ⟨?_, ?_, rfl⟩
  · intro ps hok rid res err tk hmem
    simp only [handleRequestEvent, handleRequest, hm, hok] at hmem
    cases heng : engine m with
    | none =>
        rw [heng] at hmem
        simp only [List.mem_singleton] at hmem
        cases hmem
        rfl
    | some out =>
        cases out with
        | error e =>
            rw [heng] at hmem
            simp only [List.mem_singleton] at hmem
            cases hmem
            rfl
        | ok r =>
            cases r with
            | arr items =>
                rw [heng] at hmem
                by_cases hlen : chunkSize < items.length
                · simp only [if_pos hlen, List.mem_append] at hmem
                  cases hmem with
                  | inl hchunk =>
                      exact absurd hchunk
                        (response_not_mem_chunkEmits pl.id rid items chunkSize
                          res err tk)
                  | inr hresp =>
                      simp only [List.mem_singleton] at hresp
                      cases hresp
                      rfl
                · simp only [if_neg hlen, List.mem_singleton] at hmem
                  cases hmem
                  rfl
            | nullv =>
                rw [heng] at hmem
                simp only [List.mem_singleton] at hmem
                cases hmem
                rfl
            | scalar v =>
                rw [heng] at hmem
                simp only [List.mem_singleton] at hmem
                cases hmem
                rfl
            | streamedMarker c =>
                rw [heng] at hmem
                simp only [List.mem_singleton] at hmem
                cases hmem
                rfl
  · intro e herr
    simp [handleRequestEvent, handleRequest, hm, herr, Option.bind]

/-- Witness for C8 (amended): a well-formed `size` request dispatched
between t=100 and t=107 reports `took = 7`, while the invalid-payload
fallback reports 0. -/
theorem took_reports_elapsed_policy_witness :
    (∀ ps, reparseParams (fun _ => true) ([] : List JParam) = Except.ok ps →
      ∀ rid res err tk,
        SEmit.response rid res err tk ∈
          handleRequestEvent (V := Nat) (fun _ => true)
            (fun _ => some (Except.ok (JVal.scalar 3))) 500
            (some ⟨some 2, some "size", []⟩) 100 107 →
        tk = 107 - 100) ∧
    (∀ e, reparseParams (fun _ => true) ([] : List JParam) = Except.error e →
      handleRequestEvent (V := Nat) (fun _ => true)
          (fun _ => some (Except.ok (JVal.scalar 3))) 500
          (some ⟨some 2, some "size", []⟩) 100 107 =
        [SEmit.response (some 2) JVal.nullv (some e) 0]) ∧
    handleRequestEvent (V := Nat) (fun _ => true)
        (fun _ => some (Except.ok (JVal.scalar 3))) 500 none 100 107 =
      [SEmit.response none JVal.nullv (some "Invalid payload") 0] := by
  exact took_reports_elapsed_policy (fun _ => true)
    (fun _ => some (Except.ok (JVal.scalar 3))) 500
    ⟨some 2, some "size", []⟩ "size" 100 107 rfl

end VectoriaSDK
